import Mathlib

/-!
# HPCG driver (`src/main.cpp`): shallow embedding and verified properties

`main.cpp` is the only translation unit of the repository that is available.
Everything `main` calls (`GenerateGeometry`, `GenerateProblem`,
`OptimizeMatrix`, `CG`, `ReportResults`, `destroyMatrix`, `mytimer`, the MPI
bootstrap) lives in files that are not part of the sources, so these calls are
parameters of the embedding (`Collaborators`): every theorem about `main`
quantifies over all of their behaviours.  The embedding covers the runs in
which each collaborator call returns.

Conventions

* `W` is the state of the outside world (clock, MPI runtime, files); each
  collaborator takes the current world and returns the next one.
* `G` is `Geometry`, `M` is `SparseMatrix`; their declarations are not in the
  sources, so they are type parameters.  The one field `main` reads,
  `A.localNumberOfRows`, is the parameter `Collaborators.localNumberOfRows`.
* `D` stands for `double`.  `main` uses the literal `0.0` and one subtraction,
  which are the parameters `zero` and `sub`; nothing is assumed about them.
* `int` is `Int`.  No `int` of `main` is incremented past the loop bounds, so
  no wrap-around occurs in `main` itself (`atoi` is treated separately).
* `double times[8]` is declared without an initialiser.  A slot is
  `Option D`: `none` is a slot that no assignment has reached.
* The build flag `USING_MPI` is the Boolean `usingMPI`; `DEBUG` is undefined
  by `#undef DEBUG` (line 47), so the two `#ifdef DEBUG` blocks are absent.
* Every observable step (collaborator call, text written to a stream,
  `exit`) is appended to a trace together with the values passed.
-/

namespace HPCG

/-! ## The C library function `atoi` -/

/-- C `isspace` in the "C" locale: space, `\t`, `\n`, `\v`, `\f`, `\r`. -/
def isspace (ch : Char) : Bool :=
  ch.toNat = 32 || (9 ≤ ch.toNat && ch.toNat ≤ 13)

/-- Value of the longest run of decimal digits at the head of the input,
accumulated onto `acc`. -/
def digitsValue : List Char → Nat → Nat
  | [], acc => acc
  | ch :: cs, acc =>
    if 48 ≤ ch.toNat ∧ ch.toNat ≤ 57 then digitsValue cs (acc * 10 + (ch.toNat - 48)) else acc

/-- Saturation of `strtol` at `LONG_MIN` / `LONG_MAX` (64-bit `long`). -/
def clampLong (v : Int) : Int :=
  if v < -(2 ^ 63) then -(2 ^ 63) else if 2 ^ 63 - 1 < v then 2 ^ 63 - 1 else v

/-- Conversion of a `long` to a 32-bit two's complement `int`. -/
def toInt32 (v : Int) : Int :=
  (v + 2 ^ 31) % 2 ^ 32 - 2 ^ 31

/-- C library `atoi` (called at lines 99-101): skip white space, read an optional sign, then
the longest run of decimal digits; no digits gives 0.  For a value outside the
range of `int` ISO C leaves the result open; the definition follows glibc,
where `atoi` is `(int) strtol (nptr, NULL, 10)`. -/
def atoi (s : String) : Int :=
  match s.toList.dropWhile isspace with
  | [] => 0
  | ch :: cs =>
    if ch.toNat = 45 then toInt32 (clampLong (-(digitsValue cs 0 : Int)))
    else if ch.toNat = 43 then toInt32 (clampLong (digitsValue cs 0 : Int))
    else toInt32 (clampLong (digitsValue (ch :: cs) 0 : Int))

/-! ## Data -/

/-- The array `double times[8]` (line 58); `none` is an unassigned slot. -/
abbrev Times (D : Type) := Fin 8 → Option D

/-- What `GenerateProblem(geom, A, &x, &b, &xexact)` hands back. -/
structure ProblemOut (M D : Type) where
  A : M
  x : List D
  b : List D
  xexact : List D

/-- What one call `CG(geom, A, b, x, maxIters, tolerance, niters, normr, times)`
hands back: the returned status and the contents of the arguments it may
write (`x` in place, `niters`, `normr`, `times`). -/
structure CGOut (D : Type) where
  ierr : Int
  x : List D
  niters : Int
  normr : D
  times : Times D

/-- The code reached from `main` whose definition is not in the sources.  Which
arguments a callee writes follows the data model of the specification:
`GenerateGeometry` fills `geom`; `GenerateProblem` fills `A`, `x`, `b`,
`xexact`; `OptimizeMatrix` rewrites `A`; `CG` reads `geom`, `A`, `b` and writes
`x`, `niters`, `normr`, `times`; `ReportResults` and `destroyMatrix` hand
nothing back to `main`. -/
structure Collaborators (W G M D : Type) where
  zero : D
  sub : D → D → D
  localNumberOfRows : M → Int
  MPI_Init : W → List String → List String × W
  MPI_Comm_size : W → Int × W
  MPI_Comm_rank : W → Int × W
  GenerateGeometry : W → Int → Int → Int → Int → Int → G × W
  GenerateProblem : W → G → ProblemOut M D × W
  mytimer : W → D × W
  OptimizeMatrix : W → G → M → M × W
  CG : W → G → M → List D → List D → Int → D → Int → D → Times D → CGOut D × W
  ReportResults : W → G → M → Int → D → Times D → W
  destroyMatrix : W → M → W
  MPI_Finalize : W → W

/-- Record of one `CG` call: the values passed and the values handed back. -/
structure CGCall (G M D : Type) where
  geom : G
  A : M
  b : List D
  x : List D
  maxIters : Int
  tolerance : D
  nitersIn : Int
  normrIn : D
  timesIn : Times D
  ierr : Int
  xOut : List D
  nitersOut : Int
  normrOut : D
  timesOut : Times D

/-- Record of the `ReportResults(geom, A, niters, normr, times)` call. -/
structure Report (G M D : Type) where
  geom : G
  A : M
  niters : Int
  normr : D
  times : Times D

/-- Observable steps of `main`, with the values involved. -/
inductive Event (G M D : Type) where
  | mpiInit (args : List String)
  | mpiCommSize (size : Int)
  | mpiCommRank (rank : Int)
  | usage (argv0 : String)
  | exitCall (code : Int)
  | generateGeometry (size rank nx ny nz : Int) (geom : G)
  | generateProblem (geom : G) (out : ProblemOut M D)
  | mytimer (value : D)
  | optimizeMatrix (geom : G) (A : M) (A' : M)
  | cg (call : CGCall G M D)
  | cerrCG (ierr : Int)
  | coutResidual (i : Int) (normr : D)
  | reportResults (r : Report G M D)
  | destroyMatrix (A : M)
  | deleteX (x : List D)
  | deleteB (b : List D)
  | deleteXexact (xexact : List D)
  | mpiFinalize

/-- Names of the steps, without the values. -/
inductive Kind where
  | mpiInit | mpiCommSize | mpiCommRank | usage | exitCall
  | generateGeometry | generateProblem | mytimer | optimizeMatrix
  | cg | cerrCG | coutResidual | reportResults | destroyMatrix
  | deleteX | deleteB | deleteXexact | mpiFinalize
  deriving DecidableEq, Repr

variable {W G M D : Type}

/-- Name of a step. -/
def Event.kind : Event G M D → Kind
  | .mpiInit _ => .mpiInit
  | .mpiCommSize _ => .mpiCommSize
  | .mpiCommRank _ => .mpiCommRank
  | .usage _ => .usage
  | .exitCall _ => .exitCall
  | .generateGeometry _ _ _ _ _ _ => .generateGeometry
  | .generateProblem _ _ => .generateProblem
  | .mytimer _ => .mytimer
  | .optimizeMatrix _ _ _ => .optimizeMatrix
  | .cg _ => .cg
  | .cerrCG _ => .cerrCG
  | .coutResidual _ _ => .coutResidual
  | .reportResults _ => .reportResults
  | .destroyMatrix _ => .destroyMatrix
  | .deleteX _ => .deleteX
  | .deleteB _ => .deleteB
  | .deleteXexact _ => .deleteXexact
  | .mpiFinalize => .mpiFinalize

/-- The `CG` call recorded by a step, if it is one. -/
def Event.asCG : Event G M D → Option (CGCall G M D)
  | .cg call => some call
  | _ => none

/-- The `ReportResults` call recorded by a step, if it is one. -/
def Event.asReport : Event G M D → Option (Report G M D)
  | .reportResults r => some r
  | _ => none

/-- The dimensions `(nx, ny, nz)` of a `GenerateGeometry` step, if it is one. -/
def Event.asDims : Event G M D → Option (Int × Int × Int)
  | .generateGeometry _ _ nx ny nz _ => some (nx, ny, nz)
  | _ => none

/-- The `CG` calls of a trace, in order. -/
def cgCalls (t : List (Event G M D)) : List (CGCall G M D) :=
  t.filterMap Event.asCG

/-- The `ReportResults` calls of a trace, in order. -/
def reports (t : List (Event G M D)) : List (Report G M D) :=
  t.filterMap Event.asReport

/-- The dimensions passed by the `GenerateGeometry` calls of a trace. -/
def geometryDims (t : List (Event G M D)) : List (Int × Int × Int) :=
  t.filterMap Event.asDims

/-- The steps named in the control-flow sentence of the specification. -/
def Kind.isPhase : Kind → Bool
  | .generateGeometry | .generateProblem | .cg | .reportResults | .destroyMatrix => true
  | _ => false

/-- Names of the phase steps of a trace, in order. -/
def phases (t : List (Event G M D)) : List Kind :=
  (t.map Event.kind).filter Kind.isPhase

/-! ## `main` -/

/-- Outcome of a run of `main`: the process exit code, the final world and
the trace. -/
structure Run (W G M D : Type) where
  exitCode : Int
  world : W
  trace : List (Event G M D)

/-- Lines 62-76: `argc`/`argv`, `size` and `rank` once the bootstrap is done. -/
structure Startup (W G M D : Type) where
  args : List String
  size : Int
  rank : Int
  world : W
  trace : List (Event G M D)

/-- Lines 62-76.  With `USING_MPI`: `MPI_Init(&argc, &argv)`, which may rewrite
the argument vector, then `MPI_Comm_size` and `MPI_Comm_rank`.  Without:
`size = 1`, `rank = 0`. -/
def startup (usingMPI : Bool) (c : Collaborators W G M D) (w : W) (args : List String) :
    Startup W G M D :=
  if usingMPI then
    let i := c.MPI_Init w args
    let s := c.MPI_Comm_size i.2
    let r := c.MPI_Comm_rank s.2
    { args := i.1, size := s.1, rank := r.1, world := r.2,
      trace := [.mpiInit args, .mpiCommSize s.1, .mpiCommRank r.1] }
  else
    { args := args, size := 1, rank := 0, world := w, trace := [] }

/-- The string `argv[i]` for `i < argc`.  `main` reads `argv[1..3]` only when
`argc` is 4; `argv[0]` in the usage message is the null pointer when `argc`
is 0, which is recorded as the empty string. -/
def argvAt (args : List String) (i : Nat) : String :=
  args[i]?.getD ""

/-- Lines 106-114.  With `USING_MPI`: `t7 = mytimer(); OptimizeMatrix(geom, A);
t7 = mytimer() - t7; times[7] = t7;`.  Without: nothing. -/
structure Optimized (W G M D : Type) where
  A : M
  times : Times D
  world : W
  trace : List (Event G M D)

/-- Lines 106-114 (see `Optimized`). -/
def optimizePhase (usingMPI : Bool) (c : Collaborators W G M D) (w : W) (geom : G) (A : M)
    (times : Times D) : Optimized W G M D :=
  if usingMPI then
    let tb := c.mytimer w
    let o := c.OptimizeMatrix tb.2 geom A
    let ta := c.mytimer o.2
    let t7 := c.sub ta.1 tb.1
    { A := o.1, times := Function.update times 7 (some t7), world := ta.2,
      trace := [.mytimer tb.1, .optimizeMatrix geom A o.1, .mytimer ta.1] }
  else
    { A := A, times := times, world := w, trace := [] }

/-- Line 126: `for (int j=0; j< A.localNumberOfRows; ++j) x[j] = 0.0;`, from
index `j` on with `remaining` rows to go.  `x` points to the array
`GenerateProblem` allocated; a write past its end (undefined in C++) is
dropped. -/
def resetFrom (zero : D) : (remaining : Nat) → (j : Nat) → List D → List D
  | 0, _, x => x
  | r + 1, j, x => resetFrom zero r (j + 1) (x.set j zero)

/-- Line 126. -/
def resetX (zero : D) (localNumberOfRows : Int) (x : List D) : List D :=
  resetFrom zero localNumberOfRows.toNat 0 x

/-- The variables of `main` that the loop of lines 122-127 reads and writes. -/
structure LoopState (W G M D : Type) where
  world : W
  x : List D
  ierr : Int
  niters : Int
  normr : D
  times : Times D
  trace : List (Event G M D)

/-- Line 123: the record of the call
`CG(geom, A, b, x, maxIters, tolerance, niters, normr, times)` made in state
`s`. -/
def cgCallOf (c : Collaborators W G M D) (geom : G) (A : M) (b : List D)
    (maxIters : Int) (tolerance : D) (s : LoopState W G M D) : CGCall G M D :=
  let r := c.CG s.world geom A b s.x maxIters tolerance s.niters s.normr s.times
  { geom := geom, A := A, b := b, x := s.x, maxIters := maxIters, tolerance := tolerance
    nitersIn := s.niters, normrIn := s.normr, timesIn := s.times
    ierr := r.1.ierr, xOut := r.1.x, nitersOut := r.1.niters, normrOut := r.1.normr
    timesOut := r.1.times }

/-- Lines 124-125: `if (ierr) cerr << "Error in call to CG: " ...` and
`if (rank==0) cout << "Call [" << i << "] Residual [" << normr << "]"`. -/
def cgMessages (rank : Int) (i : Nat) (ierr : Int) (normr : D) : List (Event G M D) :=
  (if ierr ≠ 0 then [.cerrCG ierr] else []) ++ (if rank = 0 then [.coutResidual i normr] else [])

/-- Lines 123-126, the body of the loop for index `i`. -/
def cgBody (c : Collaborators W G M D) (rank : Int) (geom : G) (A : M) (b : List D)
    (maxIters : Int) (tolerance : D) (i : Nat) (s : LoopState W G M D) : LoopState W G M D :=
  let r := c.CG s.world geom A b s.x maxIters tolerance s.niters s.normr s.times
  { world := r.2
    x := resetX c.zero (c.localNumberOfRows A) r.1.x
    ierr := r.1.ierr
    niters := r.1.niters
    normr := r.1.normr
    times := r.1.times
    trace := s.trace ++ .cg (cgCallOf c geom A b maxIters tolerance s)
      :: cgMessages rank i r.1.ierr r.1.normr }

/-- Lines 122-127: `for (int i=0; i< numberOfCgCalls; ++i)`, from index `i` on
with `remaining = numberOfCgCalls - i` rounds to go. -/
def cgLoopFrom (c : Collaborators W G M D) (rank : Int) (geom : G) (A : M) (b : List D)
    (maxIters : Int) (tolerance : D) :
    (remaining : Nat) → (i : Nat) → LoopState W G M D → LoopState W G M D
  | 0, _, s => s
  | r + 1, i, s =>
    cgLoopFrom c rank geom A b maxIters tolerance r (i + 1)
      (cgBody c rank geom A b maxIters tolerance i s)

/-- The steps the loop appends to the trace, from index `i` on with
`remaining` rounds to go. -/
def loopSteps (c : Collaborators W G M D) (rank : Int) (geom : G) (A : M) (b : List D)
    (maxIters : Int) (tolerance : D) :
    (remaining : Nat) → (i : Nat) → LoopState W G M D → List (Event G M D)
  | 0, _, _ => []
  | r + 1, i, s =>
    (.cg (cgCallOf c geom A b maxIters tolerance s)
        :: cgMessages rank i
          (c.CG s.world geom A b s.x maxIters tolerance s.niters s.normr s.times).1.ierr
          (c.CG s.world geom A b s.x maxIters tolerance s.niters s.normr s.times).1.normr)
      ++ loopSteps c rank geom A b maxIters tolerance r (i + 1)
        (cgBody c rank geom A b maxIters tolerance i s)

/-- The `CG` calls the loop makes, from index `i` on with `remaining` rounds
to go. -/
def loopCalls (c : Collaborators W G M D) (rank : Int) (geom : G) (A : M) (b : List D)
    (maxIters : Int) (tolerance : D) :
    (remaining : Nat) → (i : Nat) → LoopState W G M D → List (CGCall G M D)
  | 0, _, _ => []
  | r + 1, i, s =>
    cgCallOf c geom A b maxIters tolerance s
      :: loopCalls c rank geom A b maxIters tolerance r (i + 1)
        (cgBody c rank geom A b maxIters tolerance i s)

/-- Line 119: `int maxIters = 50;`. -/
def maxIters : Int := 50

/-- Line 120: `int numberOfCgCalls = 1;`. -/
def numberOfCgCalls : Int := 1

/-- Lines 99-121 for a run that passed the argument check: everything the
loop and the epilogue use (`problem` is what `GenerateProblem` handed back,
`A` the matrix as the optimisation block leaves it, `entry` the variables on
entry to the loop). -/
structure Setup (W G M D : Type) where
  rank : Int
  geom : G
  problem : ProblemOut M D
  A : M
  entry : LoopState W G M D

/-- Lines 99-121: `atoi` of the three arguments, `GenerateGeometry`,
`GenerateProblem`, the optimisation block, `t1 = mytimer()`, and the
initialisers `niters = 0`, `normr = 0.0`; `ierr` is 0 from line 55. -/
def setup (usingMPI : Bool) (c : Collaborators W G M D) (st : Startup W G M D) :
    Setup W G M D :=
  let nx := atoi (argvAt st.args 1)
  let ny := atoi (argvAt st.args 2)
  let nz := atoi (argvAt st.args 3)
  let g := c.GenerateGeometry st.world st.size st.rank nx ny nz
  let p := c.GenerateProblem g.2 g.1
  let o := optimizePhase usingMPI c p.2 g.1 p.1.A (fun _ => none)
  let t1 := c.mytimer o.world
  { rank := st.rank, geom := g.1, problem := p.1, A := o.A
    entry :=
      { world := t1.2, x := p.1.x, ierr := 0, niters := 0, normr := c.zero, times := o.times
        trace := st.trace ++ [.generateGeometry st.size st.rank nx ny nz g.1,
          .generateProblem g.1 p.1] ++ o.trace ++ [.mytimer t1.1] } }

/-- Lines 122-127 run on the state `setup` leaves, for a given loop bound. -/
def solve (c : Collaborators W G M D) (su : Setup W G M D) (nCalls : Int) : LoopState W G M D :=
  cgLoopFrom c su.rank su.geom su.A su.problem.b maxIters c.zero nCalls.toNat 0 su.entry

/-- The function `main` of `src/main.cpp` with the loop bound of line 120 as
a parameter (`main` below fixes it to `numberOfCgCalls`).  `args` is the
argument vector `argv[0..argc-1]` of the invocation. -/
def mainWith (usingMPI : Bool) (c : Collaborators W G M D) (nCalls : Int) (w : W)
    (args : List String) : Run W G M D :=
  let st := startup usingMPI c w args
  let argc : Int := st.args.length
  if argc ≠ 4 then
    { exitCode := 1, world := st.world
      trace := st.trace ++ (if st.rank = 0 then [.usage (argvAt st.args 0)] else [])
        ++ [.exitCall 1] }
  else
    let su := setup usingMPI c st
    let s := solve c su nCalls
    let w4 := c.ReportResults s.world su.geom su.A s.niters s.normr s.times
    let w5 := c.destroyMatrix w4 su.A
    { exitCode := 0
      world := if usingMPI then c.MPI_Finalize w5 else w5
      trace := s.trace ++ [.reportResults
            { geom := su.geom, A := su.A, niters := s.niters, normr := s.normr, times := s.times },
          .destroyMatrix su.A, .deleteX s.x, .deleteB su.problem.b, .deleteXexact su.problem.xexact]
        ++ (if usingMPI then [.mpiFinalize] else []) }

/-- The function `main` of `src/main.cpp` (lines 49-153). -/
def main (usingMPI : Bool) (c : Collaborators W G M D) (w : W) (args : List String) :
    Run W G M D :=
  mainWith usingMPI c numberOfCgCalls w args

/-- The argument count `argc` that line 91 tests: the length of the argument
vector after the bootstrap. -/
def argcSeen (usingMPI : Bool) (c : Collaborators W G M D) (w : W) (args : List String) : Int :=
  ((startup usingMPI c w args).args.length : Int)

/-- The timer readings around each `OptimizeMatrix` call of a trace: for every
stretch `mytimer(); OptimizeMatrix(..); mytimer()` the pair (reading before,
reading after). -/
def optimizeTimings : List (Event G M D) → List (D × D)
  | [] => []
  | .mytimer tb :: .optimizeMatrix _ _ _ :: .mytimer ta :: rest =>
    (tb, ta) :: optimizeTimings rest
  | _ :: rest => optimizeTimings rest

/-- The arrays handed to `delete [] x` (line 144), in order. -/
def deletedX (t : List (Event G M D)) : List (List D) :=
  t.filterMap fun e => match e with
    | .deleteX x => some x
    | _ => none

/-- The `OptimizeMatrix(geom, A)` calls of a trace: geometry, matrix passed,
matrix left behind. -/
def optimizeCalls (t : List (Event G M D)) : List (G × M × M) :=
  t.filterMap fun e => match e with
    | .optimizeMatrix g A A' => some (g, A, A')
    | _ => none

/-- The `GenerateProblem` calls of a trace: geometry passed, problem produced. -/
def problems (t : List (Event G M D)) : List (G × ProblemOut M D) :=
  t.filterMap fun e => match e with
    | .generateProblem g out => some (g, out)
    | _ => none

/-- The geometries the `GenerateGeometry` calls of a trace produce. -/
def geometries (t : List (Event G M D)) : List G :=
  t.filterMap fun e => match e with
    | .generateGeometry _ _ _ _ _ g => some g
    | _ => none

/-- The matrices handed to `destroyMatrix`, in order. -/
def destroyed (t : List (Event G M D)) : List M :=
  t.filterMap fun e => match e with
    | .destroyMatrix A => some A
    | _ => none

/-- The argument vector `argv` that lines 91-101 read: the one left by the
bootstrap. -/
def argvSeen (usingMPI : Bool) (c : Collaborators W G M D) (w : W) (args : List String) :
    List String :=
  (startup usingMPI c w args).args

/-- The steps `GenerateProblem`, `OptimizeMatrix` and `CG`. -/
def Kind.isProblemOptimizeOrCG : Kind → Bool
  | .generateProblem | .optimizeMatrix | .cg => true
  | _ => false

/-- The entries of `x` at the owned rows `j < localNumberOfRows` are all
`zero` (rows past the end of the array are not constrained). -/
def ZeroOnOwnedRows (zero : D) (localNumberOfRows : Int) (x : List D) : Prop :=
  ∀ j : Nat, (j : Int) < localNumberOfRows → ∀ v, x[j]? = some v → v = zero

/-- The inputs of a `CG` call that the idempotence property speaks about. -/
def CGCall.inputs (call : CGCall G M D) : G × M × List D × List D × Int × D :=
  (call.geom, call.A, call.b, call.x, call.maxIters, call.tolerance)

/-- Hypothesis "CG is a deterministic function of (A, b, x, maxIters,
tolerance)" (with the geometry): the `niters` and `normr` it hands back do not
depend on the world, nor on the values `niters`, `normr`, `times` hold on
entry. -/
def CGDeterministic (c : Collaborators W G M D) : Prop :=
  ∀ (w w' : W) (g : G) (A : M) (b x : List D) (mi : Int) (tol : D) (ni ni' : Int)
    (nr nr' : D) (ts ts' : Times D),
    (c.CG w g A b x mi tol ni nr ts).1.niters = (c.CG w' g A b x mi tol ni' nr' ts').1.niters ∧
    (c.CG w g A b x mi tol ni nr ts).1.normr = (c.CG w' g A b x mi tol ni' nr' ts').1.normr

/-- Hypothesis "CG writes `x` in place, at the owned rows only": the array
keeps its extent and its entries from index `localNumberOfRows` on.  (When
`x` has exactly `localNumberOfRows` entries this only says that the extent
is kept.) -/
def CGWritesOwnedRows (c : Collaborators W G M D) : Prop :=
  ∀ (w : W) (g : G) (A : M) (b x : List D) (mi : Int) (tol : D) (ni : Int) (nr : D)
    (ts : Times D),
    (c.CG w g A b x mi tol ni nr ts).1.x.length = x.length ∧
    ∀ k : Nat, (c.localNumberOfRows A).toNat ≤ k →
      (c.CG w g A b x mi tol ni nr ts).1.x[k]? = x[k]?

/-- Hypothesis "CG leaves slot 7 of `times` (matrix optimisation) alone". -/
def CGKeepsSlot7 (c : Collaborators W G M D) : Prop :=
  ∀ (w : W) (g : G) (A : M) (b x : List D) (mi : Int) (tol : D) (ni : Int) (nr : D)
    (ts : Times D), (c.CG w g A b x mi tol ni nr ts).1.times 7 = ts 7

/-! ## The iteration control of `CG`

`CG.cpp` is not part of the sources, so its iteration control is taken from
section 4.6 of the specification. -/

/-- States of the solver named in section 4.6 of the specification. -/
inductive CGState where
  | Init | Iterating | Converged | MaxIterExceeded
  deriving DecidableEq, Repr

/-- A state of the solver together with the number of iterations performed. -/
structure CGMachine where
  state : CGState
  niters : Nat
  deriving DecidableEq, Repr

/-- Modelled from the spec: the state machine of `CG` (file `CG.cpp`, absent).
"Init: compute initial residual; if its norm is below tolerance, transition
directly to Converged.  Iterating: ... recompute residual norm.  Transition to
Converged when residual norm falls below tolerance × initial norm, or to
MaxIterExceeded after a fixed iteration cap."  `norms k` is the residual
norm after `k` iterations (`norms 0` the initial one), `cap` the iteration
cap; "below" is read as strictly smaller. -/
def cgStep (tolerance : ℚ) (cap : Nat) (norms : Nat → ℚ) (m : CGMachine) : CGMachine :=
  match m.state with
  | .Init => if norms 0 < tolerance then ⟨.Converged, 0⟩ else ⟨.Iterating, 0⟩
  | .Iterating =>
    if cap ≤ m.niters then ⟨.MaxIterExceeded, m.niters⟩
    else if norms (m.niters + 1) < tolerance * norms 0 then ⟨.Converged, m.niters + 1⟩
    else ⟨.Iterating, m.niters + 1⟩
  | .Converged => m
  | .MaxIterExceeded => m

/-- Modelled from the spec: a whole `CG` run (file `CG.cpp`, absent), the state
machine `cgStep` started in `Init` and stepped `cap + 2` times: one step out
of `Init`, at most `cap` iterations, one step into `MaxIterExceeded`. -/
def cgRun (tolerance : ℚ) (cap : Nat) (norms : Nat → ℚ) : CGMachine :=
  (cgStep tolerance cap norms)^[cap + 2] ⟨.Init, 0⟩

/-- Hypothesis "the `CG` that `main` calls follows the state machine of the
specification": called with the tolerance `0.0` and the cap `maxIters`, it
hands back as `niters` the iteration count of a run of `cgRun` with tolerance
0 over some sequence of (non-negative) residual norms. -/
def CGFollowsSpec (c : Collaborators W G M D) : Prop :=
  ∀ (w : W) (g : G) (A : M) (b x : List D) (ni : Int) (nr : D) (ts : Times D),
    ∃ norms : Nat → ℚ, (∀ k, 0 ≤ norms k) ∧
      (c.CG w g A b x maxIters c.zero ni nr ts).1.niters
        = ((cgRun 0 maxIters.toNat norms).niters : Int)

/-! ## A concrete set of collaborators

Used to evaluate `main` on explicit inputs.  The world is a clock tick
counter, `double` is `Int`, the geometry is the triple of dimensions, the
matrix is its local row count. -/

/-- Sample `CG`: performs `maxIters` rounds, adds 1 to every owned entry of
`x`, adds its running time to slot 0 of `times`, and returns the status
`status`. -/
def sampleCG (status : Int) (w : Nat) (_geom : Int × Int × Int) (A : Int) (_b x : List Int)
    (maxIters : Int) (_tolerance : Int) (_niters : Int) (_normr : Int) (times : Times Int) :
    CGOut Int × Nat :=
  ({ ierr := status
     x := (x.take A.toNat).map (· + 1) ++ x.drop A.toNat
     niters := maxIters
     normr := 7
     times := Function.update times 0 ((times 0).map (· + 3)) }, w + 3)

/-- Sample collaborators; `status` is what `CG` returns. -/
def sample (status : Int) : Collaborators Nat (Int × Int × Int) Int Int where
  zero := 0
  sub := fun a b => a - b
  localNumberOfRows := fun A => A
  MPI_Init := fun w args => (args, w + 1)
  MPI_Comm_size := fun w => (2, w)
  MPI_Comm_rank := fun w => (0, w)
  GenerateGeometry := fun w _ _ nx ny nz => ((nx, ny, nz), w + 1)
  GenerateProblem := fun w g =>
    ({ A := g.1 * g.2.1 * g.2.2
       x := List.replicate (g.1 * g.2.1 * g.2.2).toNat 0
       b := List.replicate (g.1 * g.2.1 * g.2.2).toNat 1
       xexact := List.replicate (g.1 * g.2.1 * g.2.2).toNat 1 }, w + 1)
  mytimer := fun w => ((w : Int), w + 1)
  OptimizeMatrix := fun w _ A => (A, w + 5)
  CG := sampleCG status
  ReportResults := fun w _ _ _ _ _ => w + 1
  destroyMatrix := fun w _ => w + 1
  MPI_Finalize := fun w => w + 1

/-- A `CG` that is a function of (`A`, `x`, `maxIters`) alone and leaves `A` and
`b` as they are, but also writes the entry of `x` right after the owned rows
(a halo entry): it hands back that entry as `normr` and adds 1 to it. -/
def haloCG (w : Nat) (_geom : Int × Int × Int) (A : Int) (_b x : List Int)
    (maxIters : Int) (_tolerance : Int) (_niters : Int) (_normr : Int) (times : Times Int) :
    CGOut Int × Nat :=
  ({ ierr := 0
     x := x.set A.toNat (x.getD A.toNat 0 + 1)
     niters := maxIters
     normr := x.getD A.toNat 0
     times := times }, w + 3)

/-- The sample collaborators with vectors that carry one halo entry after the
owned rows (all entries 0 in `x`), and with `haloCG` as `CG`. -/
def haloSample : Collaborators Nat (Int × Int × Int) Int Int where
  zero := 0
  sub := fun a b => a - b
  localNumberOfRows := fun A => A
  MPI_Init := fun w args => (args, w + 1)
  MPI_Comm_size := fun w => (2, w)
  MPI_Comm_rank := fun w => (0, w)
  GenerateGeometry := fun w _ _ nx ny nz => ((nx, ny, nz), w + 1)
  GenerateProblem := fun w g =>
    ({ A := g.1 * g.2.1 * g.2.2
       x := List.replicate ((g.1 * g.2.1 * g.2.2).toNat + 1) 0
       b := List.replicate ((g.1 * g.2.1 * g.2.2).toNat + 1) 1
       xexact := List.replicate ((g.1 * g.2.1 * g.2.2).toNat + 1) 1 }, w + 1)
  mytimer := fun w => ((w : Int), w + 1)
  OptimizeMatrix := fun w _ A => (A, w + 5)
  CG := haloCG
  ReportResults := fun w _ _ _ _ _ => w + 1
  destroyMatrix := fun w _ => w + 1
  MPI_Finalize := fun w => w + 1

/-! ## Resetting `x` (line 126) -/

theorem resetFrom_getElem? (zero : D) (r j : Nat) (x : List D) (k : Nat) :
    (resetFrom zero r j x)[k]? =
      if j ≤ k ∧ k < j + r then x[k]?.map (fun _ => zero) else x[k]? := by
  induction r generalizing j x with
  | zero =>
    have : ¬ (j ≤ k ∧ k < j + 0) := by omega
    rw [resetFrom, if_neg this]
  | succ r ih =>
    rw [resetFrom, ih]
    by_cases hk : k = j
    · subst hk
      have h1 : ¬ (k + 1 ≤ k ∧ k < k + 1 + r) := by omega
      have h2 : (k ≤ k ∧ k < k + (r + 1)) := by omega
      rw [if_neg h1, if_pos h2]
      by_cases hl : k < x.length
      · simp [List.getElem?_set, hl]
      · have hn : x[k]? = none := List.getElem?_eq_none (by omega)
        simp [List.getElem?_set, hl, hn]
    · have hset : (x.set j zero)[k]? = x[k]? := by
        rw [List.getElem?_set]
        simp [Ne.symm hk]
      rw [hset]
      by_cases hc : j ≤ k ∧ k < j + (r + 1)
      · have hc2 : j + 1 ≤ k ∧ k < j + 1 + r := by omega
        rw [if_pos hc, if_pos hc2]
      · have hc2 : ¬ (j + 1 ≤ k ∧ k < j + 1 + r) := by omega
        rw [if_neg hc, if_neg hc2]

theorem resetX_getElem? (zero : D) (n : Int) (x : List D) (k : Nat) :
    (resetX zero n x)[k]? = if k < n.toNat then x[k]?.map (fun _ => zero) else x[k]? := by
  unfold resetX
  rw [resetFrom_getElem?]
  simp

/-- After line 126 every owned row of `x` holds `0.0`. -/
theorem resetX_zeroOnOwnedRows (zero : D) (n : Int) (x : List D) :
    ZeroOnOwnedRows zero n (resetX zero n x) := by
  intro j hj v hv
  rw [resetX_getElem?] at hv
  have : j < n.toNat := by omega
  rw [if_pos this] at hv
  cases hx : x[j]? with
  | none => rw [hx] at hv; simp at hv
  | some y => rw [hx] at hv; simp at hv; exact hv.symm

/-- Line 126 changes nothing when the owned rows already hold `0.0`. -/
theorem resetX_of_zeroOnOwnedRows (zero : D) (n : Int) (x : List D)
    (h : ZeroOnOwnedRows zero n x) : resetX zero n x = x := by
  apply List.ext_getElem?
  intro k
  rw [resetX_getElem?]
  split
  · rename_i hk
    cases hx : x[k]? with
    | none => rfl
    | some y =>
      have := h k (by omega) y hx
      simp [this]
  · rfl

/-- Line 126 depends on the array only through its extent and its entries
past the owned rows. -/
theorem resetX_congr (zero : D) (n : Int) (x y : List D) (hlen : x.length = y.length)
    (hrest : ∀ k : Nat, n.toNat ≤ k → x[k]? = y[k]?) :
    resetX zero n x = resetX zero n y := by
  apply List.ext_getElem?
  intro k
  rw [resetX_getElem?, resetX_getElem?]
  split
  · by_cases hk : k < x.length
    · have hk' : k < y.length := by omega
      simp [List.getElem?_eq_getElem, hk, hk']
    · have h1 : x[k]? = none := List.getElem?_eq_none (by omega)
      have h2 : y[k]? = none := List.getElem?_eq_none (by omega)
      rw [h1, h2]
  · exact hrest k (by omega)

theorem resetX_length (zero : D) (n : Int) (x : List D) :
    (resetX zero n x).length = x.length := by
  unfold resetX
  generalize n.toNat = r
  generalize 0 = j
  induction r generalizing j x with
  | zero => rfl
  | succ r ih => rw [resetFrom, ih, List.length_set]

/-! ## The loop of lines 122-127 -/

section Loop

variable (c : Collaborators W G M D) (rank : Int) (geom : G) (A : M) (b : List D)
  (mi : Int) (tol : D)

theorem cgLoopFrom_trace (r i : Nat) (s : LoopState W G M D) :
    (cgLoopFrom c rank geom A b mi tol r i s).trace
      = s.trace ++ loopSteps c rank geom A b mi tol r i s := by
  induction r generalizing i s with
  | zero => simp [cgLoopFrom, loopSteps]
  | succ r ih =>
    rw [cgLoopFrom, ih, loopSteps]
    simp [cgBody]

theorem cgLoopFrom_succ (k i : Nat) (s : LoopState W G M D) :
    cgLoopFrom c rank geom A b mi tol (k + 1) i s
      = cgBody c rank geom A b mi tol (i + k) (cgLoopFrom c rank geom A b mi tol k i s) := by
  induction k generalizing i s with
  | zero => simp [cgLoopFrom]
  | succ k ih =>
    rw [cgLoopFrom, ih]
    have : i + 1 + k = i + (k + 1) := by omega
    rw [this]
    rfl

theorem cgMessages_kind (i : Nat) (ierr : Int) (normr : D) :
    ∀ e ∈ (cgMessages rank i ierr normr : List (Event G M D)),
      e.kind = .cerrCG ∨ e.kind = .coutResidual := by
  intro e he
  unfold cgMessages at he
  simp only [List.mem_append] at he
  rcases he with he | he
  · split at he
    · simp only [List.mem_singleton] at he
      subst he; exact Or.inl rfl
    · simp at he
  · split at he
    · simp only [List.mem_singleton] at he
      subst he; exact Or.inr rfl
    · simp at he

theorem loopSteps_kind (r i : Nat) (s : LoopState W G M D) :
    ∀ e ∈ loopSteps c rank geom A b mi tol r i s,
      e.kind = .cg ∨ e.kind = .cerrCG ∨ e.kind = .coutResidual := by
  induction r generalizing i s with
  | zero => simp [loopSteps]
  | succ r ih =>
    intro e he
    rw [loopSteps] at he
    simp only [List.mem_append, List.mem_cons] at he
    rcases he with (he | he) | he
    · subst he; exact Or.inl rfl
    · exact Or.inr (cgMessages_kind rank _ _ _ e he)
    · exact ih _ _ e he

theorem filterMap_cgMessages {β : Type} (f : Event G M D → Option β)
    (hf : ∀ e, e.kind = .cerrCG ∨ e.kind = .coutResidual → f e = none)
    (i : Nat) (ierr : Int) (normr : D) :
    (cgMessages rank i ierr normr : List (Event G M D)).filterMap f = [] := by
  rw [List.filterMap_eq_nil_iff]
  intro e he
  exact hf e (cgMessages_kind rank i ierr normr e he)

theorem filterMap_loopSteps {β : Type} (f : Event G M D → Option β)
    (hf : ∀ e, e.kind = .cg ∨ e.kind = .cerrCG ∨ e.kind = .coutResidual → f e = none)
    (r i : Nat) (s : LoopState W G M D) :
    (loopSteps c rank geom A b mi tol r i s).filterMap f = [] := by
  rw [List.filterMap_eq_nil_iff]
  intro e he
  exact hf e (loopSteps_kind c rank geom A b mi tol r i s e he)

theorem cgCalls_loopSteps (r i : Nat) (s : LoopState W G M D) :
    cgCalls (loopSteps c rank geom A b mi tol r i s) = loopCalls c rank geom A b mi tol r i s := by
  induction r generalizing i s with
  | zero => simp [loopSteps, loopCalls, cgCalls]
  | succ r ih =>
    rw [loopSteps, loopCalls, ← ih]
    unfold cgCalls
    rw [List.filterMap_append, List.filterMap_cons]
    rw [filterMap_cgMessages rank Event.asCG]
    · simp [Event.asCG]
    · intro e he
      cases e <;> simp [Event.kind, Event.asCG] at he ⊢

theorem phases_loopSteps (r i : Nat) (s : LoopState W G M D) :
    phases (loopSteps c rank geom A b mi tol r i s) = List.replicate r Kind.cg := by
  induction r generalizing i s with
  | zero => simp [loopSteps, phases]
  | succ r ih =>
    have hm : ∀ (j : Nat) (e : Int) (n : D),
        phases (cgMessages rank j e n : List (Event G M D)) = [] := by
      intro j e n
      unfold phases
      rw [List.filter_eq_nil_iff]
      intro k hk
      rw [List.mem_map] at hk
      obtain ⟨ev, hev, rfl⟩ := hk
      rcases cgMessages_kind rank j e n ev hev with h | h <;> simp [h, Kind.isPhase]
    have ih' := ih (i + 1) (cgBody c rank geom A b mi tol i s)
    rw [loopSteps, List.replicate_succ, ← ih']
    unfold phases at hm ⊢
    simp only [List.map_append, List.map_cons, List.filter_append, List.cons_append]
    rw [List.filter_cons]
    simp [Event.kind, Kind.isPhase, hm]

theorem loopCalls_length (r i : Nat) (s : LoopState W G M D) :
    (loopCalls c rank geom A b mi tol r i s).length = r := by
  induction r generalizing i s with
  | zero => rfl
  | succ r ih => rw [loopCalls, List.length_cons, ih]

theorem loopCalls_getElem? (r i : Nat) (s : LoopState W G M D) (k : Nat) (hk : k < r) :
    (loopCalls c rank geom A b mi tol r i s)[k]?
      = some (cgCallOf c geom A b mi tol (cgLoopFrom c rank geom A b mi tol k i s)) := by
  induction r generalizing i s k with
  | zero => omega
  | succ r ih =>
    rw [loopCalls]
    cases k with
    | zero => simp [cgLoopFrom]
    | succ k =>
      rw [List.getElem?_cons_succ, ih _ _ k (by omega)]
      rfl

theorem loopCalls_fixed (r i : Nat) (s : LoopState W G M D) :
    ∀ call ∈ loopCalls c rank geom A b mi tol r i s,
      call.geom = geom ∧ call.A = A ∧ call.b = b ∧ call.maxIters = mi ∧ call.tolerance = tol := by
  induction r generalizing i s with
  | zero => simp [loopCalls]
  | succ r ih =>
    intro call hcall
    rw [loopCalls, List.mem_cons] at hcall
    rcases hcall with h | h
    · subst h; simp [cgCallOf]
    · exact ih _ _ call h

theorem loopSteps_cerr (r i : Nat) (s : LoopState W G M D) :
    ∀ call ∈ loopCalls c rank geom A b mi tol r i s, call.ierr ≠ 0 →
      Event.cerrCG call.ierr ∈ loopSteps c rank geom A b mi tol r i s := by
  induction r generalizing i s with
  | zero => simp [loopCalls]
  | succ r ih =>
    intro call hcall hne
    rw [loopCalls, List.mem_cons] at hcall
    rw [loopSteps]
    rcases hcall with h | h
    · subst h
      simp only [cgCallOf] at hne
      simp [cgMessages, cgCallOf, hne]
    · have := ih _ _ call h hne
      simp [this]

end Loop

/-! ## Shape of a run that passes the argument check -/

section MainShape

variable (usingMPI : Bool) (c : Collaborators W G M D) (n : Int) (w : W) (args : List String)

/-- Lines 139-151: the steps after the loop. -/
theorem mainWith_trace (h : argcSeen usingMPI c w args = 4) :
    (mainWith usingMPI c n w args).trace
      = (setup usingMPI c (startup usingMPI c w args)).entry.trace
        ++ loopSteps c (setup usingMPI c (startup usingMPI c w args)).rank
            (setup usingMPI c (startup usingMPI c w args)).geom
            (setup usingMPI c (startup usingMPI c w args)).A
            (setup usingMPI c (startup usingMPI c w args)).problem.b maxIters c.zero n.toNat 0
            (setup usingMPI c (startup usingMPI c w args)).entry
        ++ ([.reportResults
              { geom := (setup usingMPI c (startup usingMPI c w args)).geom
                A := (setup usingMPI c (startup usingMPI c w args)).A
                niters := (solve c (setup usingMPI c (startup usingMPI c w args)) n).niters
                normr := (solve c (setup usingMPI c (startup usingMPI c w args)) n).normr
                times := (solve c (setup usingMPI c (startup usingMPI c w args)) n).times },
            .destroyMatrix (setup usingMPI c (startup usingMPI c w args)).A,
            .deleteX (solve c (setup usingMPI c (startup usingMPI c w args)) n).x,
            .deleteB (setup usingMPI c (startup usingMPI c w args)).problem.b,
            .deleteXexact (setup usingMPI c (startup usingMPI c w args)).problem.xexact]
          ++ (if usingMPI then [.mpiFinalize] else [])) := by
  unfold argcSeen at h
  unfold mainWith
  simp only [h, ne_eq, not_true_eq_false, if_false]
  rw [solve, cgLoopFrom_trace]
  simp

theorem mainWith_exitCode (h : argcSeen usingMPI c w args = 4) :
    (mainWith usingMPI c n w args).exitCode = 0 := by
  unfold argcSeen at h
  unfold mainWith
  simp [h]

end MainShape

section MainProjections

variable (usingMPI : Bool) (c : Collaborators W G M D) (n : Int) (w : W) (args : List String)

/-- The `CG` calls of a run are those of the loop. -/
theorem cgCalls_mainWith (h : argcSeen usingMPI c w args = 4) :
    cgCalls (mainWith usingMPI c n w args).trace
      = loopCalls c (setup usingMPI c (startup usingMPI c w args)).rank
            (setup usingMPI c (startup usingMPI c w args)).geom
            (setup usingMPI c (startup usingMPI c w args)).A
            (setup usingMPI c (startup usingMPI c w args)).problem.b maxIters c.zero n.toNat 0
            (setup usingMPI c (startup usingMPI c w args)).entry := by
  rw [mainWith_trace usingMPI c n w args h, ← cgCalls_loopSteps]
  have hsetup : cgCalls (setup usingMPI c (startup usingMPI c w args)).entry.trace = [] := by
    cases usingMPI <;> simp [cgCalls, setup, startup, optimizePhase, Event.asCG]
  unfold cgCalls at hsetup ⊢
  rw [List.filterMap_append, List.filterMap_append, hsetup]
  cases usingMPI <;> simp [Event.asCG]

/-- The one `ReportResults` call of a run. -/
theorem reports_mainWith (h : argcSeen usingMPI c w args = 4) :
    reports (mainWith usingMPI c n w args).trace
      = [{ geom := (setup usingMPI c (startup usingMPI c w args)).geom
           A := (setup usingMPI c (startup usingMPI c w args)).A
           niters := (solve c (setup usingMPI c (startup usingMPI c w args)) n).niters
           normr := (solve c (setup usingMPI c (startup usingMPI c w args)) n).normr
           times := (solve c (setup usingMPI c (startup usingMPI c w args)) n).times }] := by
  rw [mainWith_trace usingMPI c n w args h]
  have hsetup : reports (setup usingMPI c (startup usingMPI c w args)).entry.trace = [] := by
    cases usingMPI <;> simp [reports, setup, startup, optimizePhase, Event.asReport]
  unfold reports at hsetup ⊢
  rw [List.filterMap_append, List.filterMap_append, hsetup, filterMap_loopSteps]
  · cases usingMPI <;> simp [Event.asReport]
  · intro e he
    cases e <;> simp [Event.kind, Event.asReport] at he ⊢

/-- The phase steps of a run, for any loop bound. -/
theorem phases_mainWith (h : argcSeen usingMPI c w args = 4) :
    phases (mainWith usingMPI c n w args).trace
      = Kind.generateGeometry :: Kind.generateProblem
          :: (List.replicate n.toNat Kind.cg ++ [Kind.reportResults, Kind.destroyMatrix]) := by
  rw [mainWith_trace usingMPI c n w args h]
  have hsetup : phases (setup usingMPI c (startup usingMPI c w args)).entry.trace
      = [Kind.generateGeometry, Kind.generateProblem] := by
    cases usingMPI <;> simp [phases, setup, startup, optimizePhase, Event.kind, Kind.isPhase]
  have hloop := phases_loopSteps c (setup usingMPI c (startup usingMPI c w args)).rank
            (setup usingMPI c (startup usingMPI c w args)).geom
            (setup usingMPI c (startup usingMPI c w args)).A
            (setup usingMPI c (startup usingMPI c w args)).problem.b maxIters c.zero n.toNat 0
            (setup usingMPI c (startup usingMPI c w args)).entry
  unfold phases at hsetup hloop ⊢
  rw [List.map_append, List.map_append, List.filter_append, List.filter_append, hsetup, hloop]
  cases usingMPI <;> simp [Event.kind, Kind.isPhase]

/-- The state the loop leaves after one round more. -/
theorem solve_succ (su : Setup W G M D) (k : Nat) :
    solve c su ((k : Int) + 1)
      = cgBody c su.rank su.geom su.A su.problem.b maxIters c.zero k (solve c su k) := by
  unfold solve
  have : ((k : Int) + 1).toNat = k + 1 := by omega
  rw [this, cgLoopFrom_succ]
  simp

end MainProjections

section MainProjections2

variable (usingMPI : Bool) (c : Collaborators W G M D) (n : Int) (w : W) (args : List String)

/-- A projection of the trace that ignores the steps of the loop sees the
steps before the loop and those after it. -/
theorem filterMap_mainWith {β : Type} (f : Event G M D → Option β)
    (hf : ∀ e, e.kind = .cg ∨ e.kind = .cerrCG ∨ e.kind = .coutResidual → f e = none)
    (h : argcSeen usingMPI c w args = 4) :
    (mainWith usingMPI c n w args).trace.filterMap f
      = (setup usingMPI c (startup usingMPI c w args)).entry.trace.filterMap f
        ++ ([Event.reportResults
              { geom := (setup usingMPI c (startup usingMPI c w args)).geom
                A := (setup usingMPI c (startup usingMPI c w args)).A
                niters := (solve c (setup usingMPI c (startup usingMPI c w args)) n).niters
                normr := (solve c (setup usingMPI c (startup usingMPI c w args)) n).normr
                times := (solve c (setup usingMPI c (startup usingMPI c w args)) n).times },
            .destroyMatrix (setup usingMPI c (startup usingMPI c w args)).A,
            .deleteX (solve c (setup usingMPI c (startup usingMPI c w args)) n).x,
            .deleteB (setup usingMPI c (startup usingMPI c w args)).problem.b,
            .deleteXexact (setup usingMPI c (startup usingMPI c w args)).problem.xexact]
          ++ (if usingMPI then [Event.mpiFinalize] else [])).filterMap f := by
  rw [mainWith_trace usingMPI c n w args h, List.filterMap_append, List.filterMap_append,
    filterMap_loopSteps c _ _ _ _ _ _ f hf, List.append_nil]

theorem geometries_mainWith (h : argcSeen usingMPI c w args = 4) :
    geometries (mainWith usingMPI c n w args).trace
      = [(setup usingMPI c (startup usingMPI c w args)).geom] := by
  unfold geometries
  rw [filterMap_mainWith usingMPI c n w args _ _ h]
  · cases usingMPI <;> simp [setup, startup, optimizePhase]
  · intro e he
    cases e <;> simp [Event.kind] at he ⊢

theorem problems_mainWith (h : argcSeen usingMPI c w args = 4) :
    problems (mainWith usingMPI c n w args).trace
      = [((setup usingMPI c (startup usingMPI c w args)).geom,
          (setup usingMPI c (startup usingMPI c w args)).problem)] := by
  unfold problems
  rw [filterMap_mainWith usingMPI c n w args _ _ h]
  · cases usingMPI <;> simp [setup, startup, optimizePhase]
  · intro e he
    cases e <;> simp [Event.kind] at he ⊢

theorem destroyed_mainWith (h : argcSeen usingMPI c w args = 4) :
    destroyed (mainWith usingMPI c n w args).trace
      = [(setup usingMPI c (startup usingMPI c w args)).A] := by
  unfold destroyed
  rw [filterMap_mainWith usingMPI c n w args _ _ h]
  · cases usingMPI <;> simp [setup, startup, optimizePhase]
  · intro e he
    cases e <;> simp [Event.kind] at he ⊢

theorem deletedX_mainWith (h : argcSeen usingMPI c w args = 4) :
    deletedX (mainWith usingMPI c n w args).trace
      = [(solve c (setup usingMPI c (startup usingMPI c w args)) n).x] := by
  unfold deletedX
  rw [filterMap_mainWith usingMPI c n w args _ _ h]
  · cases usingMPI <;> simp [setup, startup, optimizePhase]
  · intro e he
    cases e <;> simp [Event.kind] at he ⊢

theorem geometryDims_mainWith (h : argcSeen usingMPI c w args = 4) :
    geometryDims (mainWith usingMPI c n w args).trace
      = [(atoi (argvAt (argvSeen usingMPI c w args) 1),
          atoi (argvAt (argvSeen usingMPI c w args) 2),
          atoi (argvAt (argvSeen usingMPI c w args) 3))] := by
  unfold geometryDims
  rw [filterMap_mainWith usingMPI c n w args _ _ h]
  · cases usingMPI <;> simp [setup, startup, optimizePhase, Event.asDims, argvSeen]
  · intro e he
    cases e <;> simp [Event.kind, Event.asDims] at he ⊢

theorem optimizeCalls_mainWith (h : argcSeen usingMPI c w args = 4) :
    optimizeCalls (mainWith usingMPI c n w args).trace
      = if usingMPI then
          [((setup usingMPI c (startup usingMPI c w args)).geom,
            (setup usingMPI c (startup usingMPI c w args)).problem.A,
            (setup usingMPI c (startup usingMPI c w args)).A)]
        else [] := by
  unfold optimizeCalls
  rw [filterMap_mainWith usingMPI c n w args _ _ h]
  · cases usingMPI <;> simp [setup, startup, optimizePhase]
  · intro e he
    cases e <;> simp [Event.kind] at he ⊢

end MainProjections2

/-! ## The claims -/

/-- C1.  Whenever the argument count tested at line 91 differs from 4, in
either build and on every rank, `main` ends by `exit(1)`: the exit code is 1
and the trace holds no `GenerateGeometry`, `GenerateProblem`,
`OptimizeMatrix`, `CG` or `ReportResults` step. -/
theorem main_usage_error (usingMPI : Bool) (c : Collaborators W G M D) (w : W)
    (args : List String) (h : argcSeen usingMPI c w args ≠ 4) :
    (main usingMPI c w args).exitCode = 1 ∧
    (main usingMPI c w args).trace.getLast? = some (.exitCall 1) ∧
    ∀ e ∈ (main usingMPI c w args).trace,
      e.kind ≠ .generateGeometry ∧ e.kind ≠ .generateProblem ∧ e.kind ≠ .optimizeMatrix ∧
      e.kind ≠ .cg ∧ e.kind ≠ .reportResults := by
  unfold argcSeen at h
  unfold main mainWith
  simp only [h, ne_eq, not_false_eq_true, if_true]
  refine ⟨trivial, by simp, ?_⟩
  intro e he
  simp only [List.mem_append, List.mem_singleton] at he
  rcases he with (he | he) | he
  · unfold startup at he
    split at he
    · simp only [List.mem_cons, List.mem_singleton] at he
      rcases he with he | he | he | he <;> first | (subst he; simp [Event.kind]) | simp at he
    · simp at he
  · split at he
    · simp only [List.mem_singleton] at he
      subst he; simp [Event.kind]
    · simp at he
  · subst he; simp [Event.kind]

theorem main_usage_error_witness :
    argcSeen true (sample 0) 0 ["hpcg", "4", "4"] ≠ 4 ∧
    (main true (sample 0) 0 ["hpcg", "4", "4"]).exitCode = 1 ∧
    (main true (sample 0) 0 ["hpcg", "4", "4"]).trace.getLast? = some (.exitCall 1) ∧
    ∀ e ∈ (main true (sample 0) 0 ["hpcg", "4", "4"]).trace,
      e.kind ≠ .generateGeometry ∧ e.kind ≠ .generateProblem ∧ e.kind ≠ .optimizeMatrix ∧
      e.kind ≠ .cg ∧ e.kind ≠ .reportResults :=
  ⟨by decide, main_usage_error true (sample 0) 0 ["hpcg", "4", "4"] (by decide)⟩

/-- C2 (refuted as stated).  A run of the MPI build with arguments `2 1 1`
whose `CG` call returns status 1: the call is recorded with a non-zero status,
yet `ReportResults` is called once and the exit code is 0. -/
theorem cg_error_is_not_fatal :
    (∃ call ∈ cgCalls (main true (sample 1) 0 ["hpcg", "2", "1", "1"]).trace, call.ierr ≠ 0) ∧
    (reports (main true (sample 1) 0 ["hpcg", "2", "1", "1"]).trace).length = 1 ∧
    (main true (sample 1) 0 ["hpcg", "2", "1", "1"]).exitCode = 0 := by
  decide

/-- C2 (amended).  In every run that passes the argument check, a non-zero
status returned by a `CG` call is written to standard error (line 124) and the
run goes on: `ReportResults` is called exactly once and `main` returns 0. -/
theorem cg_error_reported_and_run_continues (usingMPI : Bool) (c : Collaborators W G M D)
    (w : W) (args : List String) (h : argcSeen usingMPI c w args = 4) :
    (∀ call ∈ cgCalls (main usingMPI c w args).trace, call.ierr ≠ 0 →
      Event.cerrCG call.ierr ∈ (main usingMPI c w args).trace) ∧
    (reports (main usingMPI c w args).trace).length = 1 ∧
    (main usingMPI c w args).exitCode = 0 := by
  unfold main
  refine ⟨?_, ?_, mainWith_exitCode usingMPI c _ w args h⟩
  · rw [mainWith_trace usingMPI c _ w args h]
    intro call hcall hne
    have hsetup : cgCalls (setup usingMPI c (startup usingMPI c w args)).entry.trace = [] := by
      cases usingMPI <;> simp [cgCalls, setup, startup, optimizePhase, Event.asCG]
    have hfin : ∀ (l : List (Event G M D)), cgCalls (l ++ (if usingMPI then [.mpiFinalize] else []))
        = cgCalls l := by
      intro l
      cases usingMPI <;> simp [cgCalls, Event.asCG]
    rw [← List.append_assoc, hfin] at hcall
    unfold cgCalls at hcall hsetup
    rw [List.filterMap_append, List.filterMap_append, hsetup] at hcall
    simp only [List.nil_append, List.filterMap_cons, Event.asCG, List.filterMap_nil,
      List.append_nil] at hcall
    have hcall' := hcall
    rw [← cgCalls, cgCalls_loopSteps] at hcall'
    have := loopSteps_cerr c _ _ _ _ _ _ _ _ _ call hcall' hne
    simp [this]
  · rw [mainWith_trace usingMPI c _ w args h]
    have hsetup : reports (setup usingMPI c (startup usingMPI c w args)).entry.trace = [] := by
      cases usingMPI <;> simp [reports, setup, startup, optimizePhase, Event.asReport]
    unfold reports at hsetup ⊢
    rw [List.filterMap_append, List.filterMap_append, hsetup, filterMap_loopSteps]
    · cases usingMPI <;> simp [Event.asReport]
    · intro e he
      cases e <;> simp [Event.kind, Event.asReport] at he ⊢

theorem cg_error_reported_and_run_continues_witness :
    argcSeen true (sample 1) 0 ["hpcg", "2", "1", "1"] = 4 ∧
    ((∀ call ∈ cgCalls (main true (sample 1) 0 ["hpcg", "2", "1", "1"]).trace, call.ierr ≠ 0 →
      Event.cerrCG call.ierr ∈ (main true (sample 1) 0 ["hpcg", "2", "1", "1"]).trace) ∧
    (reports (main true (sample 1) 0 ["hpcg", "2", "1", "1"]).trace).length = 1 ∧
    (main true (sample 1) 0 ["hpcg", "2", "1", "1"]).exitCode = 0) :=
  ⟨by decide, cg_error_reported_and_run_continues true (sample 1) 0 ["hpcg", "2", "1", "1"]
    (by decide)⟩

/-- C4.  In every run that passes the argument check `main` calls `CG`
exactly `numberOfCgCalls` = 1 times; and for any value `n` of the loop bound of
line 120 the loop makes exactly `n` calls, every one with `maxIters` = 50 and
the tolerance `0.0`, whatever the earlier calls handed back. -/
theorem cg_called_numberOfCgCalls_times (usingMPI : Bool) (c : Collaborators W G M D)
    (w : W) (args : List String) (h : argcSeen usingMPI c w args = 4) :
    (cgCalls (main usingMPI c w args).trace).length = numberOfCgCalls.toNat ∧
    numberOfCgCalls = 1 ∧
    ∀ n : Int,
      (cgCalls (mainWith usingMPI c n w args).trace).length = n.toNat ∧
      ∀ call ∈ cgCalls (mainWith usingMPI c n w args).trace,
        call.maxIters = 50 ∧ call.tolerance = c.zero := by
  refine ⟨?_, rfl, ?_⟩
  · unfold main
    rw [cgCalls_mainWith usingMPI c _ w args h, loopCalls_length]
  · intro n
    rw [cgCalls_mainWith usingMPI c n w args h]
    refine ⟨loopCalls_length _ _ _ _ _ _ _ _ _ _, ?_⟩
    intro call hcall
    have := loopCalls_fixed _ _ _ _ _ _ _ _ _ _ call hcall
    exact ⟨this.2.2.2.1, this.2.2.2.2⟩

theorem cg_called_numberOfCgCalls_times_witness :
    argcSeen false (sample 0) 0 ["hpcg", "2", "1", "1"] = 4 ∧
    ((cgCalls (main false (sample 0) 0 ["hpcg", "2", "1", "1"]).trace).length
        = numberOfCgCalls.toNat ∧
    numberOfCgCalls = 1 ∧
    ∀ n : Int,
      (cgCalls (mainWith false (sample 0) n 0 ["hpcg", "2", "1", "1"]).trace).length = n.toNat ∧
      ∀ call ∈ cgCalls (mainWith false (sample 0) n 0 ["hpcg", "2", "1", "1"]).trace,
        call.maxIters = 50 ∧ call.tolerance = (sample 0).zero) :=
  ⟨by decide, cg_called_numberOfCgCalls_times false (sample 0) 0 ["hpcg", "2", "1", "1"]
    (by decide)⟩

/-- C9.  In every run that passes the argument check (collaborators
returning), the phase steps are, in this order and each exactly once:
`GenerateGeometry`, `GenerateProblem`, the `CG` call, `ReportResults`,
`destroyMatrix`.  `GenerateProblem` receives the geometry `GenerateGeometry`
produced; `ReportResults` receives that geometry, the matrix the `CG` call
worked on, and the `niters` and `normr` that call wrote; `destroyMatrix`
receives the same matrix. -/
theorem collaborators_called_in_order (usingMPI : Bool) (c : Collaborators W G M D)
    (w : W) (args : List String) (h : argcSeen usingMPI c w args = 4) :
    phases (main usingMPI c w args).trace
      = [.generateGeometry, .generateProblem, .cg, .reportResults, .destroyMatrix] ∧
    ∃ (g : G) (out : ProblemOut M D) (call : CGCall G M D) (r : Report G M D),
      geometries (main usingMPI c w args).trace = [g] ∧
      problems (main usingMPI c w args).trace = [(g, out)] ∧
      cgCalls (main usingMPI c w args).trace = [call] ∧
      reports (main usingMPI c w args).trace = [r] ∧
      destroyed (main usingMPI c w args).trace = [r.A] ∧
      call.geom = g ∧ r.geom = g ∧ r.A = call.A ∧
      r.niters = call.nitersOut ∧ r.normr = call.normrOut := by
  unfold main
  refine ⟨?_, ?_⟩
  · rw [phases_mainWith usingMPI c _ w args h]
    simp [numberOfCgCalls]
  · refine ⟨(setup usingMPI c (startup usingMPI c w args)).geom,
      (setup usingMPI c (startup usingMPI c w args)).problem,
      cgCallOf c (setup usingMPI c (startup usingMPI c w args)).geom
        (setup usingMPI c (startup usingMPI c w args)).A
        (setup usingMPI c (startup usingMPI c w args)).problem.b maxIters c.zero
        (setup usingMPI c (startup usingMPI c w args)).entry,
      _, geometries_mainWith usingMPI c _ w args h, problems_mainWith usingMPI c _ w args h,
      ?_, reports_mainWith usingMPI c _ w args h, destroyed_mainWith usingMPI c _ w args h,
      rfl, rfl, rfl, rfl, rfl⟩
    rw [cgCalls_mainWith usingMPI c _ w args h]
    rfl

theorem collaborators_called_in_order_witness :
    argcSeen true (sample 0) 0 ["hpcg", "2", "1", "1"] = 4 ∧
    (phases (main true (sample 0) 0 ["hpcg", "2", "1", "1"]).trace
      = [.generateGeometry, .generateProblem, .cg, .reportResults, .destroyMatrix] ∧
    ∃ (g : Int × Int × Int) (out : ProblemOut Int Int)
      (call : CGCall (Int × Int × Int) Int Int) (r : Report (Int × Int × Int) Int Int),
      geometries (main true (sample 0) 0 ["hpcg", "2", "1", "1"]).trace = [g] ∧
      problems (main true (sample 0) 0 ["hpcg", "2", "1", "1"]).trace = [(g, out)] ∧
      cgCalls (main true (sample 0) 0 ["hpcg", "2", "1", "1"]).trace = [call] ∧
      reports (main true (sample 0) 0 ["hpcg", "2", "1", "1"]).trace = [r] ∧
      destroyed (main true (sample 0) 0 ["hpcg", "2", "1", "1"]).trace = [r.A] ∧
      call.geom = g ∧ r.geom = g ∧ r.A = call.A ∧
      r.niters = call.nitersOut ∧ r.normr = call.normrOut) :=
  ⟨by decide, collaborators_called_in_order true (sample 0) 0 ["hpcg", "2", "1", "1"]
    (by decide)⟩

/-- C3 (refuted as stated).  A run of the single-process build with arguments
`2 1 1`: the trace holds no `OptimizeMatrix` step, although `GenerateProblem`
and `CG` are both called. -/
theorem optimizeMatrix_absent_without_mpi :
    optimizeCalls (main false (sample 0) 0 ["hpcg", "2", "1", "1"]).trace = [] ∧
    (main false (sample 0) 0 ["hpcg", "2", "1", "1"]).trace.map Event.kind
      = [.generateGeometry, .generateProblem, .mytimer, .cg, .coutResidual, .reportResults,
         .destroyMatrix, .deleteX, .deleteB, .deleteXexact] := by
  decide

/-- C3 (amended).  In every run that passes the argument check: with
`USING_MPI`, `OptimizeMatrix` is called exactly once, on the geometry and the
matrix `GenerateProblem` produced, after `GenerateProblem` and before the
`CG` call, and the matrix it leaves is the one `CG` receives; without
`USING_MPI`, `OptimizeMatrix` is not called and `CG` receives the matrix as
generated. -/
theorem optimizeMatrix_once_with_mpi (usingMPI : Bool) (c : Collaborators W G M D)
    (w : W) (args : List String) (h : argcSeen usingMPI c w args = 4) :
    ∃ (g : G) (out : ProblemOut M D) (A' : M),
      problems (main usingMPI c w args).trace = [(g, out)] ∧
      (∀ call ∈ cgCalls (main usingMPI c w args).trace, call.A = A') ∧
      (usingMPI = true →
        optimizeCalls (main usingMPI c w args).trace = [(g, out.A, A')] ∧
        ((main usingMPI c w args).trace.map Event.kind).filter Kind.isProblemOptimizeOrCG
          = [.generateProblem, .optimizeMatrix, .cg]) ∧
      (usingMPI = false →
        optimizeCalls (main usingMPI c w args).trace = [] ∧ A' = out.A ∧
        ((main usingMPI c w args).trace.map Event.kind).filter Kind.isProblemOptimizeOrCG
          = [.generateProblem, .cg]) := by
  unfold main
  refine ⟨(setup usingMPI c (startup usingMPI c w args)).geom,
      (setup usingMPI c (startup usingMPI c w args)).problem,
      (setup usingMPI c (startup usingMPI c w args)).A,
      problems_mainWith usingMPI c _ w args h, ?_, ?_, ?_⟩
  · rw [cgCalls_mainWith usingMPI c _ w args h]
    intro call hcall
    exact (loopCalls_fixed _ _ _ _ _ _ _ _ _ _ call hcall).2.1
  · intro hm
    subst hm
    refine ⟨by rw [optimizeCalls_mainWith true c _ w args h]; rfl, ?_⟩
    rw [mainWith_trace true c _ w args h]
    simp [numberOfCgCalls, loopSteps, setup, startup, optimizePhase, Event.kind,
      Kind.isProblemOptimizeOrCG, List.filter_cons, cgMessages]
  · intro hm
    subst hm
    refine ⟨by rw [optimizeCalls_mainWith false c _ w args h]; rfl, rfl, ?_⟩
    rw [mainWith_trace false c _ w args h]
    simp [numberOfCgCalls, loopSteps, setup, startup, optimizePhase, Event.kind,
      Kind.isProblemOptimizeOrCG, List.filter_cons, cgMessages]

theorem optimizeMatrix_once_with_mpi_witness :
    argcSeen true (sample 0) 0 ["hpcg", "2", "1", "1"] = 4 ∧
    ∃ (g : Int × Int × Int) (out : ProblemOut Int Int) (A' : Int),
      problems (main true (sample 0) 0 ["hpcg", "2", "1", "1"]).trace = [(g, out)] ∧
      (∀ call ∈ cgCalls (main true (sample 0) 0 ["hpcg", "2", "1", "1"]).trace, call.A = A') ∧
      (true = true →
        optimizeCalls (main true (sample 0) 0 ["hpcg", "2", "1", "1"]).trace = [(g, out.A, A')] ∧
        ((main true (sample 0) 0 ["hpcg", "2", "1", "1"]).trace.map Event.kind).filter
            Kind.isProblemOptimizeOrCG
          = [.generateProblem, .optimizeMatrix, .cg]) ∧
      (true = false →
        optimizeCalls (main true (sample 0) 0 ["hpcg", "2", "1", "1"]).trace = [] ∧ A' = out.A ∧
        ((main true (sample 0) 0 ["hpcg", "2", "1", "1"]).trace.map Event.kind).filter
            Kind.isProblemOptimizeOrCG
          = [.generateProblem, .cg]) :=
  ⟨by decide, optimizeMatrix_once_with_mpi true (sample 0) 0 ["hpcg", "2", "1", "1"] (by decide)⟩

/-- C7 (refuted as stated).  A run with the arguments `0`, `-3` and `abc`
passes the argument check and `GenerateGeometry` receives the dimensions
0, -3 and 0. -/
theorem nonpositive_dimensions_reach_geometry :
    argcSeen false (sample 0) 0 ["hpcg", "0", "-3", "abc"] = 4 ∧
    geometryDims (main false (sample 0) 0 ["hpcg", "0", "-3", "abc"]).trace = [(0, -3, 0)] := by
  decide

/-- C7 (amended).  In every run that passes the argument check
`GenerateGeometry` is called once and receives as `nx`, `ny`, `nz` the values
`atoi(argv[1])`, `atoi(argv[2])`, `atoi(argv[3])` unchanged and unchecked; so
the dimensions it receives are all positive exactly when `atoi` of each of the
three arguments is positive. -/
theorem dimensions_are_atoi_of_arguments (usingMPI : Bool) (c : Collaborators W G M D)
    (w : W) (args : List String) (h : argcSeen usingMPI c w args = 4) :
    geometryDims (main usingMPI c w args).trace
      = [(atoi (argvAt (argvSeen usingMPI c w args) 1),
          atoi (argvAt (argvSeen usingMPI c w args) 2),
          atoi (argvAt (argvSeen usingMPI c w args) 3))] ∧
    ((∀ d ∈ geometryDims (main usingMPI c w args).trace, 0 < d.1 ∧ 0 < d.2.1 ∧ 0 < d.2.2) ↔
      (0 < atoi (argvAt (argvSeen usingMPI c w args) 1) ∧
       0 < atoi (argvAt (argvSeen usingMPI c w args) 2) ∧
       0 < atoi (argvAt (argvSeen usingMPI c w args) 3))) := by
  unfold main
  rw [geometryDims_mainWith usingMPI c _ w args h]
  simp

theorem dimensions_are_atoi_of_arguments_witness :
    argcSeen false (sample 0) 0 ["hpcg", "16", " +8", "4x"] = 4 ∧
    (geometryDims (main false (sample 0) 0 ["hpcg", "16", " +8", "4x"]).trace
      = [(atoi (argvAt (argvSeen false (sample 0) 0 ["hpcg", "16", " +8", "4x"]) 1),
          atoi (argvAt (argvSeen false (sample 0) 0 ["hpcg", "16", " +8", "4x"]) 2),
          atoi (argvAt (argvSeen false (sample 0) 0 ["hpcg", "16", " +8", "4x"]) 3))] ∧
    ((∀ d ∈ geometryDims (main false (sample 0) 0 ["hpcg", "16", " +8", "4x"]).trace,
        0 < d.1 ∧ 0 < d.2.1 ∧ 0 < d.2.2) ↔
      (0 < atoi (argvAt (argvSeen false (sample 0) 0 ["hpcg", "16", " +8", "4x"]) 1) ∧
       0 < atoi (argvAt (argvSeen false (sample 0) 0 ["hpcg", "16", " +8", "4x"]) 2) ∧
       0 < atoi (argvAt (argvSeen false (sample 0) 0 ["hpcg", "16", " +8", "4x"]) 3)))) :=
  ⟨by decide, dimensions_are_atoi_of_arguments false (sample 0) 0 ["hpcg", "16", " +8", "4x"]
    (by decide)⟩

/-- C10 (the code at the failing input).  Runs with arguments `2 1 1`.  In the
single-process build all 8 slots of `times` are unassigned when `CG` receives
the array, and all 8 still are when `ReportResults` receives it (the sample `CG`
adds its running time to slot 0, which on an unassigned slot leaves it
unassigned).  In the MPI build slot 7 alone has been assigned before the `CG`
call. -/
theorem times_unassigned_before_cg :
    (cgCalls (main false (sample 0) 0 ["hpcg", "2", "1", "1"]).trace).map
        (fun call => (List.finRange 8).map call.timesIn)
      = [[none, none, none, none, none, none, none, none]] ∧
    (reports (main false (sample 0) 0 ["hpcg", "2", "1", "1"]).trace).map
        (fun r => (List.finRange 8).map r.times)
      = [[none, none, none, none, none, none, none, none]] ∧
    (cgCalls (main true (sample 0) 0 ["hpcg", "2", "1", "1"]).trace).map
        (fun call => (List.finRange 8).map call.timesIn)
      = [[none, none, none, none, none, none, none, some 6]] := by
  decide

/-- C6 (refuted as stated).  A run of the single-process build with arguments
`2 1 1`: no `OptimizeMatrix` call is timed, and slot 7 of the array
`ReportResults` receives is unassigned. -/
theorem slot7_unassigned_without_mpi :
    optimizeTimings (main false (sample 0) 0 ["hpcg", "2", "1", "1"]).trace = [] ∧
    (reports (main false (sample 0) 0 ["hpcg", "2", "1", "1"]).trace).map (fun r => r.times 7)
      = [none] := by
  decide

/-- C6 (amended).  In every run of the `USING_MPI` build that passes the
argument check, `main` reads `mytimer()` right before and right after the one
`OptimizeMatrix` call and stores the difference (after minus before) in slot
7 of the 8-slot array `times`; the `CG` call receives the array with that
value in slot 7, and so does `ReportResults` provided `CG` leaves slot 7
alone. -/
theorem slot7_holds_optimize_time_with_mpi (c : Collaborators W G M D) (w : W)
    (args : List String) (h : argcSeen true c w args = 4) :
    ∃ tb ta : D,
      optimizeTimings (main true c w args).trace = [(tb, ta)] ∧
      (∀ call ∈ cgCalls (main true c w args).trace, call.timesIn 7 = some (c.sub ta tb)) ∧
      (CGKeepsSlot7 c →
        (reports (main true c w args).trace).map (fun r => r.times 7)
          = [some (c.sub ta tb)]) := by
  unfold main
  rw [cgCalls_mainWith true c _ w args h, reports_mainWith true c _ w args h,
    mainWith_trace true c _ w args h]
  simp only [setup, optimizePhase, if_true]
  generalize c.GenerateGeometry (startup true c w args).world (startup true c w args).size
      (startup true c w args).rank (atoi (argvAt (startup true c w args).args 1))
      (atoi (argvAt (startup true c w args).args 2))
      (atoi (argvAt (startup true c w args).args 3)) = g
  generalize c.GenerateProblem g.2 g.1 = p
  generalize c.mytimer p.2 = tb
  generalize c.OptimizeMatrix tb.2 g.1 p.1.A = o
  generalize c.mytimer o.2 = ta
  refine ⟨tb.1, ta.1, ?_, ?_, ?_⟩
  · simp only [startup, numberOfCgCalls, loopSteps, cgMessages, if_true]
    split_ifs <;> simp [optimizeTimings]
  · simp [numberOfCgCalls, loopCalls, cgCallOf]
  · intro hkeep
    simp [numberOfCgCalls, loopCalls, cgCallOf, solve, cgLoopFrom, cgBody,
      hkeep _ _ _ _ _ _ _ _ _ _]

theorem sample_keeps_slot7 (status : Int) : CGKeepsSlot7 (sample status) := by
  intro w g A b x mi tol ni nr ts
  simp [sample, sampleCG, Function.update]

theorem slot7_holds_optimize_time_with_mpi_witness :
    argcSeen true (sample 0) 0 ["hpcg", "2", "1", "1"] = 4 ∧
    ∃ tb ta : Int,
      optimizeTimings (main true (sample 0) 0 ["hpcg", "2", "1", "1"]).trace = [(tb, ta)] ∧
      (∀ call ∈ cgCalls (main true (sample 0) 0 ["hpcg", "2", "1", "1"]).trace,
        call.timesIn 7 = some ((sample 0).sub ta tb)) ∧
      (CGKeepsSlot7 (sample 0) →
        (reports (main true (sample 0) 0 ["hpcg", "2", "1", "1"]).trace).map (fun r => r.times 7)
          = [some ((sample 0).sub ta tb)]) :=
  ⟨by decide, slot7_holds_optimize_time_with_mpi (sample 0) 0 ["hpcg", "2", "1", "1"]
    (by decide)⟩

/-! ### The iteration control of `CG` with tolerance 0 -/

/-- With tolerance 0 and non-negative residual norms the machine is still
iterating after `j` iterations, for every `j` up to the cap. -/
theorem cgStep_zero_iterating (cap : Nat) (norms : Nat → ℚ) (hn : ∀ k, 0 ≤ norms k) (j : Nat)
    (hj : j ≤ cap) :
    (cgStep 0 cap norms)^[j + 1] ⟨.Init, 0⟩ = ⟨.Iterating, j⟩ := by
  induction j with
  | zero =>
    have : ¬ norms 0 < 0 := not_lt.mpr (hn 0)
    simp [cgStep, this]
  | succ j ih =>
    rw [Function.iterate_succ_apply', ih (by omega)]
    have h1 : ¬ cap ≤ j := by omega
    simp [cgStep, h1, hn (j + 1)]

/-- With tolerance 0 a run ends in `MaxIterExceeded` after exactly `cap`
iterations, whatever the (non-negative) residual norms are. -/
theorem cgRun_zero_tolerance (cap : Nat) (norms : Nat → ℚ) (hn : ∀ k, 0 ≤ norms k) :
    cgRun 0 cap norms = ⟨.MaxIterExceeded, cap⟩ := by
  unfold cgRun
  rw [Function.iterate_succ_apply', cgStep_zero_iterating cap norms hn cap (le_refl _)]
  simp [cgStep]

theorem sample_follows_spec (status : Int) : CGFollowsSpec (sample status) := by
  intro w g A b x ni nr ts
  refine ⟨fun _ => 1, fun _ => by norm_num, ?_⟩
  rw [cgRun_zero_tolerance _ _ (fun _ => by norm_num)]
  simp [sample, sampleCG, maxIters]

/-- C5.  In the state machine of the specification a `CG` run with tolerance 0
and iteration cap `cap` ends in `MaxIterExceeded` having performed exactly
`cap` iterations, whatever the residual norms are.  `main` passes the
tolerance `0.0` and `maxIters` = 50, so when the `CG` it calls follows that
state machine, the `niters` handed to `ReportResults` is exactly 50. -/
theorem full_cap_of_iterations_reported (usingMPI : Bool) (c : Collaborators W G M D)
    (w : W) (args : List String) (h : argcSeen usingMPI c w args = 4)
    (hcg : CGFollowsSpec c) :
    (∀ (cap : Nat) (norms : Nat → ℚ), (∀ k, 0 ≤ norms k) →
      cgRun 0 cap norms = ⟨.MaxIterExceeded, cap⟩) ∧
    (cgCalls (main usingMPI c w args).trace).map (fun call => (call.tolerance, call.maxIters))
      = [(c.zero, 50)] ∧
    (reports (main usingMPI c w args).trace).map (fun r => r.niters) = [50] := by
  refine ⟨cgRun_zero_tolerance, ?_, ?_⟩
  · unfold main
    rw [cgCalls_mainWith usingMPI c _ w args h]
    simp [numberOfCgCalls, loopCalls, cgCallOf, maxIters]
  · unfold main
    rw [reports_mainWith usingMPI c _ w args h]
    simp only [numberOfCgCalls, solve, cgLoopFrom, cgBody, List.map_cons, List.map_nil]
    obtain ⟨norms, hn, hrun⟩ := hcg (setup usingMPI c (startup usingMPI c w args)).entry.world
      (setup usingMPI c (startup usingMPI c w args)).geom
      (setup usingMPI c (startup usingMPI c w args)).A
      (setup usingMPI c (startup usingMPI c w args)).problem.b
      (setup usingMPI c (startup usingMPI c w args)).entry.x
      (setup usingMPI c (startup usingMPI c w args)).entry.niters
      (setup usingMPI c (startup usingMPI c w args)).entry.normr
      (setup usingMPI c (startup usingMPI c w args)).entry.times
    rw [cgRun_zero_tolerance _ _ hn] at hrun
    rw [hrun]
    simp [maxIters]

theorem full_cap_of_iterations_reported_witness :
    argcSeen true (sample 0) 0 ["hpcg", "2", "1", "1"] = 4 ∧ CGFollowsSpec (sample 0) ∧
    ((∀ (cap : Nat) (norms : Nat → ℚ), (∀ k, 0 ≤ norms k) →
      cgRun 0 cap norms = ⟨.MaxIterExceeded, cap⟩) ∧
    (cgCalls (main true (sample 0) 0 ["hpcg", "2", "1", "1"]).trace).map
        (fun call => (call.tolerance, call.maxIters))
      = [((sample 0).zero, 50)] ∧
    (reports (main true (sample 0) 0 ["hpcg", "2", "1", "1"]).trace).map (fun r => r.niters)
      = [50]) :=
  ⟨by decide, sample_follows_spec 0,
    full_cap_of_iterations_reported true (sample 0) 0 ["hpcg", "2", "1", "1"] (by decide)
      (sample_follows_spec 0)⟩

/-! ### Idempotence of the reset -/

section Reset

variable (c : Collaborators W G M D) (rank : Int) (geom : G) (A : M) (b : List D)
  (mi : Int) (tol : D)

/-- After a round of the loop every owned row of `x` holds `0.0`. -/
theorem cgLoopFrom_succ_zeroOnOwnedRows (k i : Nat) (s : LoopState W G M D) :
    ZeroOnOwnedRows c.zero (c.localNumberOfRows A)
      (cgLoopFrom c rank geom A b mi tol (k + 1) i s).x := by
  rw [cgLoopFrom_succ]
  exact resetX_zeroOnOwnedRows _ _ _

/-- When `CG` writes `x` at the owned rows only, `x` after any number of rounds
(at least one) is the reset of the `x` the loop started with. -/
theorem cgLoopFrom_succ_x (hw : CGWritesOwnedRows c) (k i : Nat) (s : LoopState W G M D) :
    (cgLoopFrom c rank geom A b mi tol (k + 1) i s).x
      = resetX c.zero (c.localNumberOfRows A) s.x := by
  induction k with
  | zero =>
    simp only [cgLoopFrom, cgBody]
    exact resetX_congr _ _ _ _ (hw _ _ _ _ _ _ _ _ _ _).1 (hw _ _ _ _ _ _ _ _ _ _).2
  | succ k ih =>
    rw [cgLoopFrom_succ]
    simp only [cgBody]
    rw [resetX_congr _ _ _ _ (hw _ _ _ _ _ _ _ _ _ _).1 (hw _ _ _ _ _ _ _ _ _ _).2, ih]
    exact resetX_of_zeroOnOwnedRows _ _ _ (resetX_zeroOnOwnedRows _ _ _)

end Reset

/-- C8 (refuted as stated).  Three `CG` calls in the single-process build with
arguments `2 1 1`, where `x` has 2 owned rows and one halo entry.  `CG` is a
deterministic function of its inputs that leaves `A` and `b` unchanged, and
`GenerateProblem` returns `x` all zero; `main` zeroes the 2 owned rows after
every call.  Yet the three calls receive `[0,0,0]`, `[0,0,1]`, `[0,0,2]` and
hand back `normr` 0, 1, 2: the calls after the first neither receive
identical inputs nor return the same `normr`. -/
theorem halo_entry_breaks_identical_calls :
    CGDeterministic haloSample ∧
    (problems (mainWith false haloSample 3 0 ["hpcg", "2", "1", "1"]).trace).map
        (fun p => (haloSample.localNumberOfRows p.2.A, p.2.x)) = [(2, [0, 0, 0])] ∧
    (cgCalls (mainWith false haloSample 3 0 ["hpcg", "2", "1", "1"]).trace).map
        (fun call => (call.x, call.xOut, call.nitersOut, call.normrOut))
      = [([0, 0, 0], [0, 0, 1], 50, 0), ([0, 0, 1], [0, 0, 2], 50, 1),
         ([0, 0, 2], [0, 0, 3], 50, 2)] :=
  ⟨fun _ _ _ _ _ _ _ _ _ _ _ _ _ _ => ⟨rfl, rfl⟩, by decide, by decide⟩

/-- C8 (amended).  For every loop bound `n ≥ 1`, in every run that passes the
argument check: (a) `main` sets `x[j] = 0.0` for every owned row `j <
A.localNumberOfRows` after each `CG` call, so the `x` every later call
receives, and the `x` left after the last call, is zero on the owned rows;
(b) when `CG` is a deterministic function of (geometry, `A`, `b`, `x`,
`maxIters`, tolerance) and writes `x` at the owned rows only (it keeps the
extent of the array and its entries from index `A.localNumberOfRows` on), all
`CG` calls after the first receive identical inputs and hand back the same
`niters` and `normr`; (c) when moreover `GenerateProblem` returns `x` zero on
the owned rows, this holds for all `CG` calls, the first included. -/
theorem reset_makes_cg_calls_identical (usingMPI : Bool) (c : Collaborators W G M D)
    (n : Int) (w : W) (args : List String) (hn : 1 ≤ n)
    (h : argcSeen usingMPI c w args = 4) :
    (cgCalls (mainWith usingMPI c n w args).trace).length = n.toNat ∧
    (∀ (k : Nat) (call : CGCall G M D),
      (cgCalls (mainWith usingMPI c n w args).trace)[k + 1]? = some call →
      ZeroOnOwnedRows c.zero (c.localNumberOfRows call.A) call.x) ∧
    (∀ call ∈ cgCalls (mainWith usingMPI c n w args).trace,
      ∀ x ∈ deletedX (mainWith usingMPI c n w args).trace,
        ZeroOnOwnedRows c.zero (c.localNumberOfRows call.A) x) ∧
    (CGDeterministic c → CGWritesOwnedRows c →
      ∀ (i j : Nat) (ci cj : CGCall G M D), 1 ≤ i → 1 ≤ j →
        (cgCalls (mainWith usingMPI c n w args).trace)[i]? = some ci →
        (cgCalls (mainWith usingMPI c n w args).trace)[j]? = some cj →
        ci.inputs = cj.inputs ∧ ci.nitersOut = cj.nitersOut ∧ ci.normrOut = cj.normrOut) ∧
    (CGDeterministic c → CGWritesOwnedRows c →
      (∀ call ∈ cgCalls (mainWith usingMPI c n w args).trace,
        ∀ p ∈ problems (mainWith usingMPI c n w args).trace,
          ZeroOnOwnedRows c.zero (c.localNumberOfRows call.A) p.2.x) →
      ∀ (i j : Nat) (ci cj : CGCall G M D),
        (cgCalls (mainWith usingMPI c n w args).trace)[i]? = some ci →
        (cgCalls (mainWith usingMPI c n w args).trace)[j]? = some cj →
        ci.inputs = cj.inputs ∧ ci.nitersOut = cj.nitersOut ∧ ci.normrOut = cj.normrOut) := by
  rw [cgCalls_mainWith usingMPI c n w args h, deletedX_mainWith usingMPI c n w args h,
    problems_mainWith usingMPI c n w args h]
  generalize hsu : setup usingMPI c (startup usingMPI c w args) = su
  have hentry : su.entry.x = su.problem.x := by
    rw [← hsu]; rfl
  obtain ⟨m, hm⟩ : ∃ m : Nat, n.toNat = m + 1 := ⟨n.toNat - 1, by omega⟩
  -- the call with index `k` is the one made in the state after `k` rounds
  have hget : ∀ (k : Nat) (call : CGCall G M D),
      (loopCalls c su.rank su.geom su.A su.problem.b maxIters c.zero n.toNat 0 su.entry)[k]?
        = some call →
      call = cgCallOf c su.geom su.A su.problem.b maxIters c.zero
        (cgLoopFrom c su.rank su.geom su.A su.problem.b maxIters c.zero k 0 su.entry) := by
    intro k call hk
    have hlt : k < n.toNat := by
      by_contra hge
      rw [List.getElem?_eq_none (by rw [loopCalls_length]; omega)] at hk
      simp at hk
    rw [loopCalls_getElem? _ _ _ _ _ _ _ _ _ _ _ hlt] at hk
    exact (Option.some.inj hk).symm
  -- two calls made on the same `x` have the same inputs and results
  have hsame : CGDeterministic c → ∀ s s' : LoopState W G M D, s.x = s'.x →
      (cgCallOf c su.geom su.A su.problem.b maxIters c.zero s).inputs
          = (cgCallOf c su.geom su.A su.problem.b maxIters c.zero s').inputs ∧
      (cgCallOf c su.geom su.A su.problem.b maxIters c.zero s).nitersOut
          = (cgCallOf c su.geom su.A su.problem.b maxIters c.zero s').nitersOut ∧
      (cgCallOf c su.geom su.A su.problem.b maxIters c.zero s).normrOut
          = (cgCallOf c su.geom su.A su.problem.b maxIters c.zero s').normrOut := by
    intro hdet s s' hx
    simp only [cgCallOf, CGCall.inputs, hx]
    exact ⟨trivial, hdet _ _ _ _ _ _ _ _ _ _ _ _ _ _⟩
  refine ⟨loopCalls_length _ _ _ _ _ _ _ _ _ _, ?_, ?_, ?_, ?_⟩
  · intro k call hk
    rw [hget _ _ hk]
    exact cgLoopFrom_succ_zeroOnOwnedRows _ _ _ _ _ _ _ _ _ _
  · intro call hcall x hx
    rw [(loopCalls_fixed _ _ _ _ _ _ _ _ _ _ call hcall).2.1]
    rw [List.mem_singleton] at hx
    subst hx
    unfold solve
    rw [hm]
    exact cgLoopFrom_succ_zeroOnOwnedRows _ _ _ _ _ _ _ _ _ _
  · intro hdet hw i j ci cj hi hj hci hcj
    obtain ⟨i, rfl⟩ : ∃ i', i = i' + 1 := ⟨i - 1, by omega⟩
    obtain ⟨j, rfl⟩ : ∃ j', j = j' + 1 := ⟨j - 1, by omega⟩
    rw [hget _ _ hci, hget _ _ hcj]
    apply hsame hdet
    rw [cgLoopFrom_succ_x _ _ _ _ _ _ _ hw, cgLoopFrom_succ_x _ _ _ _ _ _ _ hw]
  · intro hdet hw hzero i j ci cj hci hcj
    have hz : ZeroOnOwnedRows c.zero (c.localNumberOfRows su.A) su.entry.x := by
      have hmem : cgCallOf c su.geom su.A su.problem.b maxIters c.zero su.entry
          ∈ loopCalls c su.rank su.geom su.A su.problem.b maxIters c.zero n.toNat 0 su.entry := by
        rw [hm, loopCalls]
        exact List.mem_cons_self _ _
      have := hzero _ hmem (su.geom, su.problem) (List.mem_singleton.mpr rfl)
      rw [hentry]
      exact this
    have hx : ∀ k, (cgLoopFrom c su.rank su.geom su.A su.problem.b maxIters c.zero k 0
        su.entry).x = su.entry.x := by
      intro k
      cases k with
      | zero => rfl
      | succ k =>
        rw [cgLoopFrom_succ_x _ _ _ _ _ _ _ hw]
        exact resetX_of_zeroOnOwnedRows _ _ _ hz
    rw [hget _ _ hci, hget _ _ hcj]
    apply hsame hdet
    rw [hx, hx]

theorem sample_deterministic (status : Int) : CGDeterministic (sample status) := by
  intro w w' g A b x mi tol ni ni' nr nr' ts ts'
  simp [sample, sampleCG]

theorem sample_writes_owned_rows (status : Int) : CGWritesOwnedRows (sample status) := by
  intro w g A b x mi tol ni nr ts
  simp only [sample, sampleCG]
  refine ⟨?_, ?_⟩
  · simp only [List.length_append, List.length_map, List.length_take, List.length_drop]
    omega
  · intro k hk
    by_cases hlen : A.toNat ≤ x.length
    · rw [List.getElem?_append_right (by simp; omega)]
      simp only [List.length_map, List.length_take, List.getElem?_drop]
      congr 1
      omega
    · rw [List.getElem?_eq_none (by
        simp only [List.length_append, List.length_map, List.length_take, List.length_drop]
        omega)]
      rw [List.getElem?_eq_none (by omega)]

theorem reset_makes_cg_calls_identical_witness :
    (1 : Int) ≤ 3 ∧ argcSeen true (sample 0) 0 ["hpcg", "2", "1", "1"] = 4 ∧
    CGDeterministic (sample 0) ∧ CGWritesOwnedRows (sample 0) ∧
    ((cgCalls (mainWith true (sample 0) 3 0 ["hpcg", "2", "1", "1"]).trace).length
        = (3 : Int).toNat ∧
    (∀ (k : Nat) (call : CGCall (Int × Int × Int) Int Int),
      (cgCalls (mainWith true (sample 0) 3 0 ["hpcg", "2", "1", "1"]).trace)[k + 1]? = some call →
      ZeroOnOwnedRows (sample 0).zero ((sample 0).localNumberOfRows call.A) call.x) ∧
    (∀ call ∈ cgCalls (mainWith true (sample 0) 3 0 ["hpcg", "2", "1", "1"]).trace,
      ∀ x ∈ deletedX (mainWith true (sample 0) 3 0 ["hpcg", "2", "1", "1"]).trace,
        ZeroOnOwnedRows (sample 0).zero ((sample 0).localNumberOfRows call.A) x) ∧
    (CGDeterministic (sample 0) → CGWritesOwnedRows (sample 0) →
      ∀ (i j : Nat) (ci cj : CGCall (Int × Int × Int) Int Int), 1 ≤ i → 1 ≤ j →
        (cgCalls (mainWith true (sample 0) 3 0 ["hpcg", "2", "1", "1"]).trace)[i]? = some ci →
        (cgCalls (mainWith true (sample 0) 3 0 ["hpcg", "2", "1", "1"]).trace)[j]? = some cj →
        ci.inputs = cj.inputs ∧ ci.nitersOut = cj.nitersOut ∧ ci.normrOut = cj.normrOut) ∧
    (CGDeterministic (sample 0) → CGWritesOwnedRows (sample 0) →
      (∀ call ∈ cgCalls (mainWith true (sample 0) 3 0 ["hpcg", "2", "1", "1"]).trace,
        ∀ p ∈ problems (mainWith true (sample 0) 3 0 ["hpcg", "2", "1", "1"]).trace,
          ZeroOnOwnedRows (sample 0).zero ((sample 0).localNumberOfRows call.A) p.2.x) →
      ∀ (i j : Nat) (ci cj : CGCall (Int × Int × Int) Int Int),
        (cgCalls (mainWith true (sample 0) 3 0 ["hpcg", "2", "1", "1"]).trace)[i]? = some ci →
        (cgCalls (mainWith true (sample 0) 3 0 ["hpcg", "2", "1", "1"]).trace)[j]? = some cj →
        ci.inputs = cj.inputs ∧ ci.nitersOut = cj.nitersOut ∧ ci.normrOut = cj.normrOut)) :=
  ⟨by decide, by decide, sample_deterministic 0, sample_writes_owned_rows 0,
    reset_makes_cg_calls_identical true (sample 0) 3 0 ["hpcg", "2", "1", "1"] (by decide)
      (by decide)⟩

end HPCG
